import Mathlib

/-!
Verification of the infranow orchestration core.

Shallow embedding of the problem-store merge/score/evict logic
(`internal/monitor/watcher.go`), the `Problem` model
(`internal/models/problem.go`) and the baseline diff
(`internal/baseline/baseline.go`).

Conventions of the embedding:
* `time.Time` values are rationals counting seconds; durations are rational
  numbers of seconds (1 minute = 60, 30 s = 30, and so on).
* `float64` arithmetic (scores, persistence, error rate) is modelled over `ℚ`.
* Go maps keyed by strings are modelled as association lists / key lists;
  `map[string]*Problem` keyed by `Problem.ID` is a `List Problem` looked up
  with `List.find?` on the `ID` field.
* The capacity-1 notification channel `updateChan` is modelled by the number
  of buffered signals (`updatePending : ℕ`); the non-blocking send
  (`select`/`default`) increments it only when the buffer is empty.
-/

namespace Infranow

/-- Go `models.Severity` is a string type (`type Severity string`). -/
abbrev Severity := String

/-- Go `models.SeverityFatal`. -/
def SeverityFatal : Severity := "FATAL"

/-- Go `models.SeverityCritical`. -/
def SeverityCritical : Severity := "CRITICAL"

/-- Go `models.SeverityWarning`. -/
def SeverityWarning : Severity := "WARNING"

/-- Go `models.Problem`: a unified infrastructure issue.  The Go field `Type`
is rendered `Typ` because `Type` is reserved in Lean. -/
structure Problem where
  ID : String
  Entity : String
  EntityType : String
  Typ : String
  Severity : Severity
  Title : String
  Message : String
  FirstSeen : ℚ
  LastSeen : ℚ
  Count : ℤ
  BlastRadius : ℤ
  Persistence : ℚ
  Volatility : ℚ
  Labels : List (String × String)
  Metrics : List (String × ℚ)
  Hint : String
deriving Repr, DecidableEq

/-- Severity weight: the Go `severityWeight` map inside `Problem.Score`,
with the zero default a Go map lookup gives on a missing key. -/
def severityWeight (s : Severity) : ℚ :=
  if s = SeverityFatal then 100
  else if s = SeverityCritical then 50
  else if s = SeverityWarning then 10
  else 0

/-- Go `Problem.Score`:
`base * (1 + BlastRadius*0.1) * (1 + Persistence/3600)`. -/
def Problem.Score (p : Problem) : ℚ :=
  severityWeight p.Severity * (1 + (p.BlastRadius : ℚ) * (1/10))
    * (1 + p.Persistence / 3600)

/-- Go `Problem.UpdatePersistence`: `Persistence = LastSeen − FirstSeen` in
seconds. -/
def Problem.UpdatePersistence (p : Problem) : Problem :=
  { p with Persistence := p.LastSeen - p.FirstSeen }

/-- The watcher's problem map `map[string]*Problem`, keyed by `Problem.ID`. -/
abbrev Store := List Problem

/-- Lookup `w.problems[id]`. -/
def findProblem (s : Store) (id : String) : Option Problem :=
  s.find? (fun e => e.ID == id)

/-- The in-place mutation of the stored entry matching `p.ID` in
`Watcher.updateProblems` (`existing.Count++`, `existing.LastSeen = now`,
`existing.Metrics = p.Metrics`, `existing.UpdatePersistence()`), as a map
over the store: entries with another ID are untouched. -/
def updEntryFun (now : ℚ) (p : Problem) (e : Problem) : Problem :=
  if e.ID == p.ID then
    Problem.UpdatePersistence
      { e with Count := e.Count + 1, LastSeen := now, Metrics := p.Metrics }
  else e

/-- The initialisation of a newly inserted problem in
`Watcher.updateProblems` (`p.FirstSeen = now`, `p.LastSeen = now`,
`p.Count = 1`, `p.UpdatePersistence()`). -/
def freshEntry (now : ℚ) (p : Problem) : Problem :=
  Problem.UpdatePersistence { p with FirstSeen := now, LastSeen := now, Count := 1 }

/-- Body of the `for _, p := range detected` loop in
`Watcher.updateProblems`: one detected problem merged into the store.
If `p.ID` is present the stored entry is mutated in place; otherwise `p`
itself is initialised and inserted. -/
def mergeOne (now : ℚ) (s : Store) (p : Problem) : Store :=
  if (findProblem s p.ID).isSome then s.map (updEntryFun now p)
  else s ++ [freshEntry now p]

/-- The stale-pruning pass of `Watcher.updateProblems`: delete every entry
with `LastSeen.Before(now - 1 minute)`. -/
def pruneStale (now : ℚ) (s : Store) : Store :=
  s.filter (fun p => !(decide (p.LastSeen < now - 60)))

/-- Whether the pruning pass of a merge at `now` deletes anything from `s`. -/
def anyStale (now : ℚ) (s : Store) : Bool :=
  s.any (fun p => decide (p.LastSeen < now - 60))

/-- A concrete problem used by the closed witness theorems. -/
def sampleProblem : Problem where
  ID := "ns/pod/high_error_rate"
  Entity := "ns/pod"
  EntityType := "kubernetes_pod"
  Typ := "high_error_rate"
  Severity := SeverityCritical
  Title := "High error rate"
  Message := "error rate above threshold"
  FirstSeen := 0
  LastSeen := 0
  Count := 0
  BlastRadius := 2
  Persistence := 0
  Volatility := 0
  Labels := [("namespace", "ns")]
  Metrics := [("error_rate", 1/2)]
  Hint := "check recent deploys"

example :
    mergeOne 5 [] sampleProblem
    = [{ sampleProblem with FirstSeen := 5, LastSeen := 5, Count := 1 }] := by
  simp [mergeOne, findProblem, freshEntry, Problem.UpdatePersistence, sampleProblem]

/-- Whether `Watcher.updateProblems` sets its `updated` flag when merging
`detected` at `now`: the per-problem loop sets it for every batch element
(both branches), and the pruning pass sets it when it deletes an entry. -/
def mergeChanged (s : Store) (detected : List Problem) (now : ℚ) : Bool :=
  !detected.isEmpty || anyStale now (detected.foldl (mergeOne now) s)

/-- The non-blocking send on the capacity-1 `updateChan`
(`select { case w.updateChan <- struct{}{} : default: }`), acting on the
number of buffered signals. -/
def notifySend (pending : ℕ) : ℕ :=
  if pending < 1 then pending + 1 else pending

/-- The mutable state of `monitor.Watcher` that the claims concern:
the problem map, the health-watchdog fields, and the number of signals
buffered in the capacity-1 `updateChan`. -/
structure WatcherState where
  problems : Store
  prometheusHealthy : Bool
  lastPrometheusCheck : ℚ
  lastSuccessfulQuery : ℚ
  queryCount : ℤ
  errorCount : ℤ
  updatePending : ℕ
deriving Repr, DecidableEq

/-- Go `NewWatcher`: empty problem map, healthy, zero times and counters,
empty notification channel. -/
def newWatcher : WatcherState where
  problems := []
  prometheusHealthy := true
  lastPrometheusCheck := 0
  lastSuccessfulQuery := 0
  queryCount := 0
  errorCount := 0
  updatePending := 0

/-- Go `Watcher.updateProblems`: merge the detected batch, prune stale
entries, and send the coalescing notification when anything changed. -/
def updateProblems (w : WatcherState) (detected : List Problem) (now : ℚ) :
    WatcherState :=
  let merged := detected.foldl (mergeOne now) w.problems
  { w with
    problems := pruneStale now merged
    updatePending :=
      if mergeChanged w.problems detected now then notifySend w.updatePending
      else w.updatePending }

/-- Go `Watcher.checkPrometheusHealth`: skip unless 30 seconds have elapsed
since `lastPrometheusCheck`; otherwise probe `provider.Health` (outcome
`healthOk`) and record the result and the check time. -/
def checkPrometheusHealth (w : WatcherState) (now : ℚ) (healthOk : Bool) :
    WatcherState :=
  if now - w.lastPrometheusCheck < 30 then w
  else { w with prometheusHealthy := healthOk, lastPrometheusCheck := now }

/-- Whether `checkPrometheusHealth` at time `now` actually invokes the
backend probe `provider.Health`. -/
def probes (w : WatcherState) (now : ℚ) : Prop :=
  ¬ (now - w.lastPrometheusCheck < 30)

instance (w : WatcherState) (now : ℚ) : Decidable (probes w now) := by
  unfold probes; infer_instance

/-- The outcome of one `d.Detect` call: a batch of problems or an error. -/
abbrev DetectResult := Except String (List Problem)

/-- Go `Watcher.executeDetector`: the periodic health check, then the detect
call; on error record the failure and return without touching the problem
map, on success record the query and merge the batch. -/
def executeDetector (w : WatcherState) (now : ℚ) (healthOk : Bool)
    (result : DetectResult) : WatcherState :=
  let w1 := checkPrometheusHealth w now healthOk
  match result with
  | .error _ =>
      { w1 with
        queryCount := w1.queryCount + 1
        prometheusHealthy := false
        lastPrometheusCheck := now
        errorCount := w1.errorCount + 1 }
  | .ok problems =>
      updateProblems
        { w1 with
          queryCount := w1.queryCount + 1
          prometheusHealthy := true
          lastPrometheusCheck := now
          lastSuccessfulQuery := now }
        problems now

/-- Go `monitor.PrometheusStats`. -/
structure PrometheusStats where
  Healthy : Bool
  LastCheck : ℚ
  LastSuccessfulQuery : ℚ
  QueryCount : ℤ
  ErrorCount : ℤ
  ErrorRate : ℚ
deriving Repr, DecidableEq

/-- Go `Watcher.GetPrometheusStats`: snapshot of the watchdog counters with
`ErrorRate = errorCount / queryCount` when `queryCount > 0`, else the
zero value. -/
def getPrometheusStats (w : WatcherState) : PrometheusStats where
  Healthy := w.prometheusHealthy
  LastCheck := w.lastPrometheusCheck
  LastSuccessfulQuery := w.lastSuccessfulQuery
  QueryCount := w.queryCount
  ErrorCount := w.errorCount
  ErrorRate :=
    if w.queryCount > 0 then (w.errorCount : ℚ) / (w.queryCount : ℚ) else 0

/-- One observable transition of the watcher: a detector execution
(`executeDetector`, with its time, health-probe outcome and detect
result), or the UI consumer draining one signal from `updateChan`. -/
inductive WStep : WatcherState → WatcherState → Prop
  | exec (w : WatcherState) (now : ℚ) (healthOk : Bool) (result : DetectResult) :
      WStep w (executeDetector w now healthOk result)
  | drain (w : WatcherState) (h : 0 < w.updatePending) :
      WStep w { w with updatePending := w.updatePending - 1 }

/-- States reachable from the freshly constructed watcher. -/
def ReachableW (w : WatcherState) : Prop :=
  Relation.ReflTransGen WStep newWatcher w

/-! ## Baseline diff (`internal/baseline/baseline.go`) -/

/-- The distinct IDs of a problem list: the key set of the Go map built by
`for _, p := range l { m[p.ID] = p }`. -/
def mapKeysOf (l : List Problem) : List String :=
  (l.map Problem.ID).dedup

/-- Go `baseline.ComparisonSummary`. -/
structure ComparisonSummary where
  NewCount : ℕ
  ResolvedCount : ℕ
  UnchangedCount : ℕ
deriving Repr, DecidableEq

/-- Go `baseline.Comparison`: the classified entries, represented by their
IDs (the key each entry is classified under). -/
structure Comparison where
  New : List String
  Resolved : List String
  Unchanged : List String
  Summary : ComparisonSummary
deriving Repr, DecidableEq

/-- Go `baseline.Compare`: build the two ID maps, put each current ID into
`Unchanged` or `New` according to membership in the baseline map, put each
baseline ID absent from the current map into `Resolved`, and record the
lengths in the summary. -/
def Compare (current baseline : List Problem) : Comparison :=
  let baselineKeys := mapKeysOf baseline
  let currentKeys := mapKeysOf current
  let unchanged := currentKeys.filter (fun id => baselineKeys.contains id)
  let newIds := currentKeys.filter (fun id => !baselineKeys.contains id)
  let resolved := baselineKeys.filter (fun id => !currentKeys.contains id)
  { New := newIds
    Resolved := resolved
    Unchanged := unchanged
    Summary :=
      { NewCount := newIds.length
        ResolvedCount := resolved.length
        UnchangedCount := unchanged.length } }

/-! ## Reference-level model of the problem snapshot exports

`GetProblems`, `GetProblemsByRecency` and `GetProblemsByCount` copy each
stored struct with `pCopy := *p`.  A Go struct copy duplicates scalar
fields but copies map fields *by reference*: the copy's `Labels` and
`Metrics` point at the same map objects as the stored problem.  To state
what the copies do and do not share, this second model makes the map
references explicit: a `ProblemRef` is the struct value with its two map
handles, and a `MapHeap` holds the map objects those handles denote. -/

/-- A `models.Problem` struct value as Go lays it out: scalar fields plus
references (handles) to its `Labels` and `Metrics` map objects. -/
structure ProblemRef where
  ID : String
  Severity : Severity
  FirstSeen : ℚ
  LastSeen : ℚ
  Count : ℤ
  BlastRadius : ℤ
  Persistence : ℚ
  LabelsRef : ℕ
  MetricsRef : ℕ
deriving Repr, DecidableEq

/-- The map objects live on the heap, addressed by their handles. -/
structure MapHeap where
  stringMaps : List (ℕ × List (String × String))
  floatMaps : List (ℕ × List (String × ℚ))
deriving Repr, DecidableEq

/-- The watcher's stored problems together with the heap holding their
`Labels`/`Metrics` map objects. -/
structure WatcherHeapState where
  problems : List ProblemRef
  heap : MapHeap
deriving Repr, DecidableEq

/-- Go `Problem.Score` on the struct-value view (maps do not enter the
score). -/
def ProblemRef.Score (p : ProblemRef) : ℚ :=
  severityWeight p.Severity * (1 + (p.BlastRadius : ℚ) * (1/10))
    * (1 + p.Persistence / 3600)

/-- Go `Watcher.GetProblems`: copy every stored struct (`pCopy := *p`) and
sort by score descending.  The copy is Go's struct assignment, so it is
the identical struct value — map references included. -/
def getProblems (w : WatcherHeapState) : List ProblemRef :=
  (w.problems.map (fun p => p)).mergeSort
    (fun a b => ProblemRef.Score b ≤ ProblemRef.Score a)

/-- Go `Watcher.GetProblemsByRecency`: struct copies sorted by `LastSeen`
descending. -/
def getProblemsByRecency (w : WatcherHeapState) : List ProblemRef :=
  (w.problems.map (fun p => p)).mergeSort (fun a b => b.LastSeen ≤ a.LastSeen)

/-- Go `Watcher.GetProblemsByCount`: struct copies sorted by `Count`
descending. -/
def getProblemsByCount (w : WatcherHeapState) : List ProblemRef :=
  (w.problems.map (fun p => p)).mergeSort (fun a b => b.Count ≤ a.Count)

/-- Go `m[k] = v` on the float map object at handle `ref`. -/
def writeFloatEntry (h : MapHeap) (ref : ℕ) (k : String) (v : ℚ) : MapHeap :=
  { h with
    floatMaps := h.floatMaps.map (fun m =>
      if m.1 = ref then (m.1, (k, v) :: m.2.filter (fun e => e.1 ≠ k)) else m) }

/-- Go `m[k]` on the float map object at handle `ref`. -/
def readFloatEntry (h : MapHeap) (ref : ℕ) (k : String) : Option ℚ :=
  (h.floatMaps.find? (fun m => m.1 == ref)).bind
    (fun m => (m.2.find? (fun e => e.1 == k)).map Prod.snd)

/-- The `Metrics[k]` value of a stored problem, read through its handle:
what the watcher itself sees in that problem's metrics map. -/
def storedMetric (w : WatcherHeapState) (p : ProblemRef) (k : String) :
    Option ℚ :=
  readFloatEntry w.heap p.MetricsRef k

/-! ## Fine-grained model of concurrent health checks

`Start` launches one goroutine per registered detector and each executes
immediately; with the default `--max-concurrency 0` (unlimited) their
`checkPrometheusHealth` calls overlap.  Inside that function the guard
reads `lastPrometheusCheck` under an `RLock` that is *released before*
`provider.Health` runs, and the probe result is committed under the write
lock afterwards.  The function is therefore two atomic sections, not one:
the guarded read, and the probe-plus-commit.  This model gives each
goroutine a program counter over those two sections and logs the time of
every `provider.Health` invocation. -/

/-- Where one goroutine stands inside `checkPrometheusHealth`: outside
the critical part (`idle`), or past the 30-second guard and about to call
`provider.Health` (`passedGuard`). -/
inductive ProbePhase
  | idle : ProbePhase
  | passedGuard : ProbePhase
deriving Repr, DecidableEq

/-- Shared watcher fields touched by `checkPrometheusHealth`, the program
counter of each detector goroutine, and the log of the times at which
`provider.Health` has been invoked. -/
structure ConcHealthState where
  lastPrometheusCheck : ℚ
  prometheusHealthy : Bool
  phases : List ProbePhase
  probeTimes : List ℚ
deriving Repr, DecidableEq

/-- The guard of `checkPrometheusHealth` as goroutine `g` executes it at
time `now`: `w.mu.RLock(); lastCheck := w.lastPrometheusCheck;
w.mu.RUnlock(); if time.Since(lastCheck) < 30*time.Second { return }`.
The read is atomic (it holds the read lock), but the lock is released
when the guard decides, so the decision acts on a value other goroutines
may be about to overwrite. -/
def guardStep (s : ConcHealthState) (g : ℕ) (now : ℚ) : ConcHealthState :=
  match s.phases.get? g with
  | some ProbePhase.idle =>
      if now - s.lastPrometheusCheck < 30 then s
      else { s with phases := s.phases.set g ProbePhase.passedGuard }
  | _ => s

/-- The rest of `checkPrometheusHealth` as goroutine `g` executes it at
time `now`: `err := w.provider.Health(healthCtx)` — an invocation of the
backend probe, logged here with its time — followed by
`w.mu.Lock(); w.prometheusHealthy = (err == nil);
w.lastPrometheusCheck = time.Now(); w.mu.Unlock()`. -/
def probeStep (s : ConcHealthState) (g : ℕ) (now : ℚ) (healthOk : Bool) :
    ConcHealthState :=
  match s.phases.get? g with
  | some ProbePhase.passedGuard =>
      { s with
        probeTimes := s.probeTimes ++ [now]
        prometheusHealthy := healthOk
        lastPrometheusCheck := now
        phases := s.phases.set g ProbePhase.idle }
  | _ => s

/-- Two detector goroutines about to run their first cycle's health check
against a fresh watcher (`lastPrometheusCheck` still the zero time, no
probe performed yet). -/
def twoDetectorStart : ConcHealthState where
  lastPrometheusCheck := 0
  prometheusHealthy := true
  phases := [ProbePhase.idle, ProbePhase.idle]
  probeTimes := []

/-! ## Concrete sample data for the closed witness theorems -/

/-- A stored entry with the same ID as `sampleProblem` but older data. -/
def storedSample : Problem :=
  { sampleProblem with Count := 3, Metrics := [("error_rate", 1/4)] }

/-- A watcher whose store holds `storedSample`. -/
def sampleWatcher : WatcherState :=
  { newWatcher with problems := [storedSample] }

/-- A stale stored entry: `LastSeen = 0`, two minutes before `now = 120`. -/
def staleSample : Problem :=
  { sampleProblem with ID := "stale/problem" }

/-- A watcher whose store holds only `staleSample`. -/
def staleWatcher : WatcherState :=
  { newWatcher with problems := [staleSample] }

/-- A problem struct value with map handles, stored in `sampleHeapState`. -/
def sampleRefProblem : ProblemRef where
  ID := "ns/pod/high_error_rate"
  Severity := SeverityCritical
  FirstSeen := 0
  LastSeen := 0
  Count := 1
  BlastRadius := 0
  Persistence := 0
  LabelsRef := 0
  MetricsRef := 1

/-- A watcher heap state with one stored problem whose metrics map object
lives at handle 1 and maps `"error_rate"` to `1/2`. -/
def sampleHeapState : WatcherHeapState where
  problems := [sampleRefProblem]
  heap :=
    { stringMaps := [(0, [("namespace", "ns")])]
      floatMaps := [(1, [("error_rate", 1/2)])] }

/-! ## Lemmas about the merge loop -/

theorem findProblem_cons (x : Problem) (s : Store) (id : String) :
    findProblem (x :: s) id = if x.ID == id then some x else findProblem s id := by
  unfold findProblem
  rw [List.find?]
  cases hx : x.ID == id <;> simp [hx]

theorem updEntryFun_ID (now : ℚ) (p e : Problem) :
    (updEntryFun now p e).ID = e.ID := by
  unfold updEntryFun
  split <;> rfl

theorem updEntryFun_of_ne (now : ℚ) (p e : Problem) (h : e.ID ≠ p.ID) :
    updEntryFun now p e = e := by
  unfold updEntryFun
  rw [if_neg]
  simp [h]

theorem updEntryFun_of_eq (now : ℚ) (p e : Problem) (h : e.ID = p.ID) :
    updEntryFun now p e
      = { e with
          Count := e.Count + 1, LastSeen := now,
          Metrics := p.Metrics, Persistence := now - e.FirstSeen } := by
  unfold updEntryFun
  rw [if_pos (by simp [h])]
  simp [Problem.UpdatePersistence]

theorem freshEntry_eq (now : ℚ) (p : Problem) :
    freshEntry now p
      = { p with
          FirstSeen := now, LastSeen := now, Count := 1,
          Persistence := 0 } := by
  simp [freshEntry, Problem.UpdatePersistence]

theorem freshEntry_ID (now : ℚ) (p : Problem) :
    (freshEntry now p).ID = p.ID := rfl

theorem findProblem_map_update_ne (now : ℚ) (p : Problem) (s : Store)
    (id : String) (h : id ≠ p.ID) :
    findProblem (s.map (updEntryFun now p)) id = findProblem s id := by
  induction s with
  | nil => rfl
  | cons x xs ih =>
    rw [List.map_cons, findProblem_cons, findProblem_cons, updEntryFun_ID]
    by_cases hx : x.ID = id
    · have hxp : x.ID ≠ p.ID := fun hc => h (hx ▸ hc)
      rw [updEntryFun_of_ne now p x hxp]
      simp [hx]
    · simp [hx, ih]

theorem findProblem_append_one_ne (s : Store) (q : Problem) (id : String)
    (h : id ≠ q.ID) :
    findProblem (s ++ [q]) id = findProblem s id := by
  induction s with
  | nil =>
    have hq : (q.ID == id) = false := by
      simp only [beq_eq_false_iff_ne, ne_eq]
      exact fun hc => h hc.symm
    simp [findProblem, List.find?, hq]
  | cons x xs ih =>
    rw [List.cons_append, findProblem_cons, findProblem_cons, ih]

theorem findProblem_mergeOne_ne (now : ℚ) (p : Problem) (s : Store)
    (id : String) (h : id ≠ p.ID) :
    findProblem (mergeOne now s p) id = findProblem s id := by
  unfold mergeOne
  split
  · exact findProblem_map_update_ne now p s id h
  · rw [findProblem_append_one_ne s (freshEntry now p) id (by rw [freshEntry_ID]; exact h)]

theorem findProblem_map_update_self (now : ℚ) (p : Problem) (s : Store)
    (e : Problem) (h : findProblem s p.ID = some e) :
    findProblem (s.map (updEntryFun now p)) p.ID
      = some { e with
               Count := e.Count + 1, LastSeen := now,
               Metrics := p.Metrics, Persistence := now - e.FirstSeen } := by
  induction s with
  | nil => simp [findProblem] at h
  | cons x xs ih =>
    rw [findProblem_cons] at h
    rw [List.map_cons, findProblem_cons, updEntryFun_ID]
    by_cases hx : x.ID = p.ID
    · rw [if_pos (by simp [hx])] at h ⊢
      injection h with he
      subst he
      rw [updEntryFun_of_eq now p x hx]
    · rw [if_neg (by simp [hx])] at h ⊢
      exact ih h

theorem findProblem_append_one_self (s : Store) (q : Problem)
    (h : findProblem s q.ID = none) :
    findProblem (s ++ [q]) q.ID = some q := by
  induction s with
  | nil => simp [findProblem, List.find?]
  | cons x xs ih =>
    rw [findProblem_cons] at h
    rw [List.cons_append, findProblem_cons]
    by_cases hx : x.ID = q.ID
    · rw [if_pos (by simp [hx])] at h
      cases h
    · rw [if_neg (by simp [hx])] at h ⊢
      exact ih h

theorem findProblem_mergeOne_self_some (now : ℚ) (p : Problem) (s : Store)
    (e : Problem) (h : findProblem s p.ID = some e) :
    findProblem (mergeOne now s p) p.ID
      = some { e with
               Count := e.Count + 1, LastSeen := now,
               Metrics := p.Metrics, Persistence := now - e.FirstSeen } := by
  unfold mergeOne
  rw [h]
  simp only [Option.isSome_some, if_true]
  exact findProblem_map_update_self now p s e h

theorem findProblem_mergeOne_self_none (now : ℚ) (p : Problem) (s : Store)
    (h : findProblem s p.ID = none) :
    findProblem (mergeOne now s p) p.ID
      = some { p with
               FirstSeen := now, LastSeen := now, Count := 1,
               Persistence := 0 } := by
  unfold mergeOne
  rw [h]
  simp only [Option.isSome_none, Bool.false_eq_true, if_false]
  have h2 := findProblem_append_one_self s (freshEntry now p)
    (by rw [freshEntry_ID]; exact h)
  rw [freshEntry_ID] at h2
  rw [h2, freshEntry_eq]

theorem findProblem_foldl_not_mem (now : ℚ) (B : List Problem) (s : Store)
    (id : String) (h : ∀ q ∈ B, q.ID ≠ id) :
    findProblem (B.foldl (mergeOne now) s) id = findProblem s id := by
  induction B generalizing s with
  | nil => rfl
  | cons q rest ih =>
    rw [List.foldl_cons]
    rw [ih (mergeOne now s q) (fun r hr => h r (List.mem_cons_of_mem q hr))]
    exact findProblem_mergeOne_ne now q s id (h q (List.mem_cons_self q rest)).symm

theorem nodup_head_not_mem_tail {q : Problem} {rest : List Problem}
    (hB : ((q :: rest).map Problem.ID).Nodup) :
    ∀ r ∈ rest, r.ID ≠ q.ID := by
  rw [List.map_cons, List.nodup_cons] at hB
  intro r hr hc
  exact hB.1 (hc ▸ List.mem_map_of_mem Problem.ID hr)

theorem findProblem_foldl_mem_some (now : ℚ) (B : List Problem) (s : Store)
    (p e : Problem) (hB : (B.map Problem.ID).Nodup) (hp : p ∈ B)
    (h : findProblem s p.ID = some e) :
    findProblem (B.foldl (mergeOne now) s) p.ID
      = some { e with
               Count := e.Count + 1, LastSeen := now,
               Metrics := p.Metrics, Persistence := now - e.FirstSeen } := by
  induction B generalizing s with
  | nil => cases hp
  | cons q rest ih =>
    rw [List.foldl_cons]
    rcases List.mem_cons.mp hp with hpq | hpr
    · subst hpq
      rw [findProblem_foldl_not_mem now rest (mergeOne now s p) p.ID
        (nodup_head_not_mem_tail hB)]
      exact findProblem_mergeOne_self_some now p s e h
    · have hne : p.ID ≠ q.ID := nodup_head_not_mem_tail hB p hpr
      exact ih (mergeOne now s q) ((List.map_cons Problem.ID q rest ▸ hB).of_cons)
        hpr ((findProblem_mergeOne_ne now q s p.ID hne).trans h)

theorem findProblem_foldl_mem_none (now : ℚ) (B : List Problem) (s : Store)
    (p : Problem) (hB : (B.map Problem.ID).Nodup) (hp : p ∈ B)
    (h : findProblem s p.ID = none) :
    findProblem (B.foldl (mergeOne now) s) p.ID
      = some { p with
               FirstSeen := now, LastSeen := now, Count := 1,
               Persistence := 0 } := by
  induction B generalizing s with
  | nil => cases hp
  | cons q rest ih =>
    rw [List.foldl_cons]
    rcases List.mem_cons.mp hp with hpq | hpr
    · subst hpq
      rw [findProblem_foldl_not_mem now rest (mergeOne now s p) p.ID
        (nodup_head_not_mem_tail hB)]
      exact findProblem_mergeOne_self_none now p s h
    · have hne : p.ID ≠ q.ID := nodup_head_not_mem_tail hB p hpr
      exact ih (mergeOne now s q) ((List.map_cons Problem.ID q rest ▸ hB).of_cons)
        hpr ((findProblem_mergeOne_ne now q s p.ID hne).trans h)

/-! ## Lemmas about the pruning pass -/

theorem mem_pruneStale (now : ℚ) (s : Store) (q : Problem) :
    q ∈ pruneStale now s ↔ q ∈ s ∧ ¬ (q.LastSeen < now - 60) := by
  simp [pruneStale, List.mem_filter]

theorem findProblem_pruneStale (now : ℚ) (s : Store) (id : String)
    (e : Problem) (h : findProblem s id = some e)
    (hk : ¬ e.LastSeen < now - 60) :
    findProblem (pruneStale now s) id = some e := by
  induction s with
  | nil => simp [findProblem] at h
  | cons x xs ih =>
    rw [findProblem_cons] at h
    by_cases hx : x.ID = id
    · rw [if_pos (by simp [hx])] at h
      injection h with he
      subst he
      rw [pruneStale, List.filter_cons, if_pos (by simpa using hk)]
      rw [findProblem_cons, if_pos (by simp [hx])]
    · rw [if_neg (by simp [hx])] at h
      rw [pruneStale, List.filter_cons]
      split
      · rw [findProblem_cons, if_neg (by simp [hx])]
        exact ih h
      · exact ih h

theorem updateProblems_problems (w : WatcherState) (B : List Problem)
    (now : ℚ) :
    (updateProblems w B now).problems
      = pruneStale now (B.foldl (mergeOne now) w.problems) := rfl

/-! ## Membership preservation through the merge loop -/

theorem mem_mergeOne_of_ne (now : ℚ) (s : Store) (p q : Problem)
    (h : q.ID ≠ p.ID) (hq : q ∈ s) : q ∈ mergeOne now s p := by
  unfold mergeOne
  split
  · exact List.mem_map.mpr ⟨q, hq, updEntryFun_of_ne now p q h⟩
  · exact List.mem_append_left _ hq

theorem mem_foldl_of_ne (now : ℚ) (B : List Problem) (s : Store)
    (q : Problem) (h : ∀ r ∈ B, r.ID ≠ q.ID) (hq : q ∈ s) :
    q ∈ B.foldl (mergeOne now) s := by
  induction B generalizing s with
  | nil => exact hq
  | cons r rest ih =>
    rw [List.foldl_cons]
    exact ih (mergeOne now s r) (fun r' hr' => h r' (List.mem_cons_of_mem r hr'))
      (mem_mergeOne_of_ne now s r q (h r (List.mem_cons_self r rest)).symm hq)

/-! ## Claim C1: merge semantics of `updateProblems` -/

/-- Claim C1: merging a batch `B` at time `now` increments `Count` of each
already-stored ID, sets its `LastSeen` to `now`, replaces `Metrics` with
the detected metrics and recomputes `Persistence = LastSeen − FirstSeen`;
an unseen ID is inserted with `FirstSeen = LastSeen = now`, `Count = 1`,
`Persistence = 0`; and re-merging the same ID twice within the staleness
window adds exactly 2 to `Count` and leaves `FirstSeen` unchanged. -/
theorem updateProblems_merge_semantics (w : WatcherState) (B : List Problem)
    (now : ℚ) (hB : (B.map Problem.ID).Nodup) :
    (∀ p ∈ B, ∀ e, findProblem w.problems p.ID = some e →
        findProblem (updateProblems w B now).problems p.ID
          = some { e with
                   Count := e.Count + 1, LastSeen := now,
                   Metrics := p.Metrics, Persistence := now - e.FirstSeen }) ∧
    (∀ p ∈ B, findProblem w.problems p.ID = none →
        findProblem (updateProblems w B now).problems p.ID
          = some { p with
                   FirstSeen := now, LastSeen := now, Count := 1,
                   Persistence := 0 }) ∧
    (∀ (v : WatcherState) (p q : Problem) (now₁ now₂ : ℚ),
        q.ID = p.ID → now₁ ≤ now₂ → now₂ - now₁ ≤ 60 →
        ∀ e, findProblem v.problems p.ID = some e →
          findProblem
              (updateProblems (updateProblems v [p] now₁) [q] now₂).problems
              p.ID
            = some { e with
                     Count := e.Count + 2, LastSeen := now₂,
                     Metrics := q.Metrics,
                     Persistence := now₂ - e.FirstSeen }) := by
  refine ⟨?_, ?_, ?_⟩
  · intro p hp e he
    rw [updateProblems_problems]
    refine findProblem_pruneStale now _ p.ID _
      (findProblem_foldl_mem_some now B w.problems p e hB hp he) ?_
    show ¬ now < now - 60
    linarith
  · intro p hp he
    rw [updateProblems_problems]
    refine findProblem_pruneStale now _ p.ID _
      (findProblem_foldl_mem_none now B w.problems p hB hp he) ?_
    show ¬ now < now - 60
    linarith
  · intro v p q now₁ now₂ hq hle hwin e he
    have h1 : findProblem (updateProblems v [p] now₁).problems p.ID
        = some { e with
                 Count := e.Count + 1, LastSeen := now₁,
                 Metrics := p.Metrics, Persistence := now₁ - e.FirstSeen } := by
      rw [updateProblems_problems]
      refine findProblem_pruneStale now₁ _ p.ID _
        (findProblem_foldl_mem_some now₁ [p] v.problems p e (by simp)
          (by simp) he) ?_
      show ¬ now₁ < now₁ - 60
      linarith
    have h2 : findProblem (updateProblems v [p] now₁).problems q.ID
        = some { e with
                 Count := e.Count + 1, LastSeen := now₁,
                 Metrics := p.Metrics, Persistence := now₁ - e.FirstSeen } := by
      rw [hq]
      exact h1
    have h3 :=
      findProblem_pruneStale now₂ _ q.ID _
        (findProblem_foldl_mem_some now₂ [q] (updateProblems v [p] now₁).problems
          q _ (by simp) (by simp) h2)
        (by show ¬ now₂ < now₂ - 60; linarith)
    rw [updateProblems_problems, ← hq]
    rw [h3]
    obtain ⟨_, _, _, _, _, _, _, _, _, cnt, _, _, _, _, _, _⟩ := e
    simp only [Option.some.injEq, Problem.mk.injEq, and_true, true_and]
    omega

/-- Witness for claim C1: concrete run of the first conjunct. -/
theorem updateProblems_merge_semantics_witness :
    findProblem (updateProblems sampleWatcher [sampleProblem] 10).problems
        sampleProblem.ID
      = some { storedSample with
               Count := storedSample.Count + 1, LastSeen := 10,
               Metrics := sampleProblem.Metrics,
               Persistence := 10 - storedSample.FirstSeen } :=
  (updateProblems_merge_semantics sampleWatcher [sampleProblem] 10
      (by simp)).1 sampleProblem (by simp) storedSample
    (by simp [sampleWatcher, newWatcher, findProblem, storedSample,
      List.find?])

/-! ## Claim C10: fields not touched by a re-detection merge -/

/-- Claim C10: when a merge updates an already-stored problem, every field
other than `Count`, `LastSeen`, `Metrics` and `Persistence` keeps the
stored value — `Entity`, `EntityType`, `Typ`, `Severity`, `Title`,
`Message`, `BlastRadius`, `Labels`, `Hint`, `Volatility` and `FirstSeen`
all come from the first detection, whatever the new batch entry carries. -/
theorem merge_preserves_identity_fields (w : WatcherState) (B : List Problem)
    (now : ℚ) (hB : (B.map Problem.ID).Nodup) :
    ∀ p ∈ B, ∀ e, findProblem w.problems p.ID = some e →
      ∃ e', findProblem (updateProblems w B now).problems p.ID = some e' ∧
        e'.Entity = e.Entity ∧ e'.EntityType = e.EntityType ∧
        e'.Typ = e.Typ ∧ e'.Severity = e.Severity ∧ e'.Title = e.Title ∧
        e'.Message = e.Message ∧ e'.BlastRadius = e.BlastRadius ∧
        e'.Labels = e.Labels ∧ e'.Hint = e.Hint ∧
        e'.Volatility = e.Volatility ∧ e'.FirstSeen = e.FirstSeen := by
  intro p hp e he
  refine ⟨{ e with
            Count := e.Count + 1, LastSeen := now,
            Metrics := p.Metrics, Persistence := now - e.FirstSeen },
    ?_, rfl, rfl, rfl, rfl, rfl, rfl, rfl, rfl, rfl, rfl, rfl⟩
  rw [updateProblems_problems]
  refine findProblem_pruneStale now _ p.ID _
    (findProblem_foldl_mem_some now B w.problems p e hB hp he) ?_
  show ¬ now < now - 60
  linarith

/-- Witness for claim C10: the stored entry keeps its identity fields when the
same ID is re-detected with different data. -/
theorem merge_preserves_identity_fields_witness :
    ∃ e', findProblem (updateProblems sampleWatcher [sampleProblem] 10).problems
        sampleProblem.ID = some e' ∧
      e'.Entity = storedSample.Entity ∧
      e'.EntityType = storedSample.EntityType ∧
      e'.Typ = storedSample.Typ ∧ e'.Severity = storedSample.Severity ∧
      e'.Title = storedSample.Title ∧ e'.Message = storedSample.Message ∧
      e'.BlastRadius = storedSample.BlastRadius ∧
      e'.Labels = storedSample.Labels ∧ e'.Hint = storedSample.Hint ∧
      e'.Volatility = storedSample.Volatility ∧
      e'.FirstSeen = storedSample.FirstSeen :=
  merge_preserves_identity_fields sampleWatcher [sampleProblem] 10 (by simp)
    sampleProblem (by simp) storedSample
    (by simp [sampleWatcher, newWatcher, findProblem, storedSample,
      List.find?])

/-! ## Claim C2: the eviction scan runs on every merge -/

/-- Claim C2: every merge — including one with an empty batch — ends with
the store-wide eviction scan: exactly the entries whose `LastSeen` is more
than 60 seconds before `now` are dropped; an empty batch leaves every
surviving entry untouched; and an entry two minutes old is removed by
the very next merge whatever batch triggered it (as long as that batch
does not re-detect its ID). -/
theorem updateProblems_eviction (w : WatcherState) (B : List Problem)
    (now : ℚ) :
    (∀ p : Problem, p ∈ (updateProblems w B now).problems ↔
        p ∈ B.foldl (mergeOne now) w.problems ∧ ¬ (p.LastSeen < now - 60)) ∧
    (∀ p : Problem, p ∈ (updateProblems w [] now).problems ↔
        p ∈ w.problems ∧ ¬ (p.LastSeen < now - 60)) ∧
    (∀ p ∈ w.problems, p.LastSeen = now - 120 → (∀ q ∈ B, q.ID ≠ p.ID) →
        p ∉ (updateProblems w B now).problems) := by
  refine ⟨?_, ?_, ?_⟩
  · intro p
    rw [updateProblems_problems]
    exact mem_pruneStale now _ p
  · intro p
    rw [updateProblems_problems]
    simp only [List.foldl_nil]
    exact mem_pruneStale now _ p
  · intro p _ hstale _ hin
    rw [updateProblems_problems] at hin
    have h2 := ((mem_pruneStale now _ p).mp hin).2
    rw [hstale] at h2
    exact h2 (by linarith)

/-- Witness for claim C2: a two-minute-stale entry is evicted by an empty
merge. -/
theorem updateProblems_eviction_witness :
    staleSample ∉ (updateProblems staleWatcher [] 120).problems :=
  (updateProblems_eviction staleWatcher [] 120).2.2 staleSample
    (by simp [staleWatcher, newWatcher])
    (by norm_num [staleSample, sampleProblem]) (by simp)

/-! ## Projection lemmas for the watcher operations -/

theorem checkPrometheusHealth_problems (w : WatcherState) (now : ℚ)
    (hk : Bool) : (checkPrometheusHealth w now hk).problems = w.problems := by
  unfold checkPrometheusHealth
  split <;> rfl

theorem checkPrometheusHealth_queryCount (w : WatcherState) (now : ℚ)
    (hk : Bool) : (checkPrometheusHealth w now hk).queryCount = w.queryCount := by
  unfold checkPrometheusHealth
  split <;> rfl

theorem checkPrometheusHealth_errorCount (w : WatcherState) (now : ℚ)
    (hk : Bool) : (checkPrometheusHealth w now hk).errorCount = w.errorCount := by
  unfold checkPrometheusHealth
  split <;> rfl

theorem checkPrometheusHealth_updatePending (w : WatcherState) (now : ℚ)
    (hk : Bool) :
    (checkPrometheusHealth w now hk).updatePending = w.updatePending := by
  unfold checkPrometheusHealth
  split <;> rfl

theorem updateProblems_queryCount (w : WatcherState) (B : List Problem)
    (now : ℚ) : (updateProblems w B now).queryCount = w.queryCount := rfl

theorem updateProblems_errorCount (w : WatcherState) (B : List Problem)
    (now : ℚ) : (updateProblems w B now).errorCount = w.errorCount := rfl

theorem updateProblems_lastCheck (w : WatcherState) (B : List Problem)
    (now : ℚ) :
    (updateProblems w B now).lastPrometheusCheck = w.lastPrometheusCheck := rfl

theorem updateProblems_updatePending (w : WatcherState) (B : List Problem)
    (now : ℚ) :
    (updateProblems w B now).updatePending
      = if mergeChanged w.problems B now then notifySend w.updatePending
        else w.updatePending := rfl

theorem executeDetector_queryCount (w : WatcherState) (now : ℚ) (hk : Bool)
    (res : DetectResult) :
    (executeDetector w now hk res).queryCount = w.queryCount + 1 := by
  cases res with
  | error msg =>
    show (checkPrometheusHealth w now hk).queryCount + 1 = w.queryCount + 1
    rw [checkPrometheusHealth_queryCount]
  | ok probs =>
    show (updateProblems _ probs now).queryCount = w.queryCount + 1
    rw [updateProblems_queryCount]
    show (checkPrometheusHealth w now hk).queryCount + 1 = w.queryCount + 1
    rw [checkPrometheusHealth_queryCount]

theorem executeDetector_lastCheck (w : WatcherState) (now : ℚ) (hk : Bool)
    (res : DetectResult) :
    (executeDetector w now hk res).lastPrometheusCheck = now := by
  cases res with
  | error msg => rfl
  | ok probs =>
    show (updateProblems _ probs now).lastPrometheusCheck = now
    rw [updateProblems_lastCheck]

/-! ## Claim C3: the score formula and its monotonicity -/

/-- Claim C3: the score is `severityWeight × (1 + BlastRadius·0.1) ×
(1 + Persistence/3600)` with weights 10/50/100; with non-negative blast
radius and persistence it is strictly increasing in the severity tier, in
the blast radius, and in the persistence. -/
theorem score_formula_monotone :
    (∀ p : Problem, p.Severity = SeverityWarning →
        p.Score = 10 * (1 + (p.BlastRadius : ℚ) * (1/10))
          * (1 + p.Persistence / 3600)) ∧
    (∀ p : Problem, p.Severity = SeverityCritical →
        p.Score = 50 * (1 + (p.BlastRadius : ℚ) * (1/10))
          * (1 + p.Persistence / 3600)) ∧
    (∀ p : Problem, p.Severity = SeverityFatal →
        p.Score = 100 * (1 + (p.BlastRadius : ℚ) * (1/10))
          * (1 + p.Persistence / 3600)) ∧
    (∀ p : Problem, 0 ≤ p.BlastRadius → 0 ≤ p.Persistence →
        Problem.Score { p with Severity := SeverityWarning }
            < Problem.Score { p with Severity := SeverityCritical } ∧
        Problem.Score { p with Severity := SeverityCritical }
            < Problem.Score { p with Severity := SeverityFatal }) ∧
    (∀ p : Problem, 0 ≤ p.BlastRadius → 0 ≤ p.Persistence →
        (p.Severity = SeverityWarning ∨ p.Severity = SeverityCritical ∨
          p.Severity = SeverityFatal) →
        ∀ b : ℤ, p.BlastRadius < b →
          p.Score < Problem.Score { p with BlastRadius := b }) ∧
    (∀ p : Problem, 0 ≤ p.BlastRadius → 0 ≤ p.Persistence →
        (p.Severity = SeverityWarning ∨ p.Severity = SeverityCritical ∨
          p.Severity = SeverityFatal) →
        ∀ s : ℚ, p.Persistence < s →
          p.Score < Problem.Score { p with Persistence := s }) := by
  have hw : severityWeight SeverityWarning = 10 := by
    simp [severityWeight, SeverityWarning, SeverityCritical, SeverityFatal]
  have hc : severityWeight SeverityCritical = 50 := by
    simp [severityWeight, SeverityWarning, SeverityCritical, SeverityFatal]
  have hf : severityWeight SeverityFatal = 100 := by
    simp [severityWeight, SeverityWarning, SeverityCritical, SeverityFatal]
  refine ⟨?_, ?_, ?_, ?_, ?_, ?_⟩
  · intro p hp
    rw [Problem.Score, hp, hw]
  · intro p hp
    rw [Problem.Score, hp, hc]
  · intro p hp
    rw [Problem.Score, hp, hf]
  · intro p hb hs
    have hb' : (0 : ℚ) ≤ (p.BlastRadius : ℚ) := by exact_mod_cast hb
    have hA : (0 : ℚ) < 1 + (p.BlastRadius : ℚ) * (1/10) := by linarith
    have hB : (0 : ℚ) < 1 + p.Persistence / 3600 := by
      have : (0 : ℚ) ≤ p.Persistence / 3600 := by positivity
      linarith
    have hM : (0 : ℚ)
        < (1 + (p.BlastRadius : ℚ) * (1/10)) * (1 + p.Persistence / 3600) :=
      mul_pos hA hB
    constructor
    · show severityWeight SeverityWarning * (1 + (p.BlastRadius : ℚ) * (1/10))
            * (1 + p.Persistence / 3600)
          < severityWeight SeverityCritical
            * (1 + (p.BlastRadius : ℚ) * (1/10)) * (1 + p.Persistence / 3600)
      rw [hw, hc]
      nlinarith [hM]
    · show severityWeight SeverityCritical
            * (1 + (p.BlastRadius : ℚ) * (1/10)) * (1 + p.Persistence / 3600)
          < severityWeight SeverityFatal * (1 + (p.BlastRadius : ℚ) * (1/10))
            * (1 + p.Persistence / 3600)
      rw [hc, hf]
      nlinarith [hM]
  · intro p hb hs hsev b hlt
    have hb' : (0 : ℚ) ≤ (p.BlastRadius : ℚ) := by exact_mod_cast hb
    have hlt' : (p.BlastRadius : ℚ) < (b : ℚ) := by exact_mod_cast hlt
    have hB : (0 : ℚ) < 1 + p.Persistence / 3600 := by
      have : (0 : ℚ) ≤ p.Persistence / 3600 := by positivity
      linarith
    have hwpos : 0 < severityWeight p.Severity := by
      rcases hsev with h | h | h <;> rw [h]
      · rw [hw]
        norm_num
      · rw [hc]
        norm_num
      · rw [hf]
        norm_num
    show severityWeight p.Severity * (1 + (p.BlastRadius : ℚ) * (1/10))
          * (1 + p.Persistence / 3600)
        < severityWeight p.Severity * (1 + (b : ℚ) * (1/10))
          * (1 + p.Persistence / 3600)
    nlinarith [mul_pos hwpos hB, mul_pos (mul_pos hwpos hB)
      (show (0:ℚ) < (b : ℚ) - (p.BlastRadius : ℚ) by linarith)]
  · intro p hb hs hsev s hlt
    have hb' : (0 : ℚ) ≤ (p.BlastRadius : ℚ) := by exact_mod_cast hb
    have hA : (0 : ℚ) < 1 + (p.BlastRadius : ℚ) * (1/10) := by linarith
    have hwpos : 0 < severityWeight p.Severity := by
      rcases hsev with h | h | h <;> rw [h]
      · rw [hw]
        norm_num
      · rw [hc]
        norm_num
      · rw [hf]
        norm_num
    show severityWeight p.Severity * (1 + (p.BlastRadius : ℚ) * (1/10))
          * (1 + p.Persistence / 3600)
        < severityWeight p.Severity * (1 + (p.BlastRadius : ℚ) * (1/10))
          * (1 + s / 3600)
    nlinarith [mul_pos hwpos hA, mul_pos (mul_pos hwpos hA)
      (show (0:ℚ) < s - p.Persistence by linarith)]

/-- Witness for claim C3: instantiation at a concrete problem. -/
theorem score_formula_monotone_witness :
    Problem.Score { sampleProblem with Severity := SeverityWarning }
      < Problem.Score { sampleProblem with Severity := SeverityCritical } :=
  (score_formula_monotone.2.2.2.1 sampleProblem
    (by norm_num [sampleProblem]) (by norm_num [sampleProblem])).1

/-! ## Claim C5: the error path of a detector execution -/

/-- Claim C5: when `Detect` errors, the problem map is untouched (so the
eviction pass does not run that cycle), the error counter and the query
counter each increase by exactly 1, health flips to false — and the query
counter increases by 1 on every execution whatever the outcome. -/
theorem executeDetector_error_path (w : WatcherState) (now : ℚ)
    (healthOk : Bool) (msg : String) :
    (executeDetector w now healthOk (Except.error msg)).problems
        = w.problems ∧
    (executeDetector w now healthOk (Except.error msg)).errorCount
        = w.errorCount + 1 ∧
    (executeDetector w now healthOk (Except.error msg)).prometheusHealthy
        = false ∧
    (executeDetector w now healthOk (Except.error msg)).queryCount
        = w.queryCount + 1 ∧
    (∀ res : DetectResult,
        (executeDetector w now healthOk res).queryCount = w.queryCount + 1) := by
  refine ⟨?_, ?_, ?_, ?_, executeDetector_queryCount w now healthOk⟩
  · show (checkPrometheusHealth w now healthOk).problems = w.problems
    exact checkPrometheusHealth_problems w now healthOk
  · show (checkPrometheusHealth w now healthOk).errorCount + 1
        = w.errorCount + 1
    rw [checkPrometheusHealth_errorCount]
  · rfl
  · show (checkPrometheusHealth w now healthOk).queryCount + 1
        = w.queryCount + 1
    rw [checkPrometheusHealth_queryCount]

/-! ## Claim C6: notification coalescing -/

theorem executeDetector_updatePending_error (w : WatcherState) (now : ℚ)
    (hk : Bool) (msg : String) :
    (executeDetector w now hk (Except.error msg)).updatePending
      = w.updatePending := by
  show (checkPrometheusHealth w now hk).updatePending = w.updatePending
  exact checkPrometheusHealth_updatePending w now hk

theorem notifySend_le_one (p : ℕ) (hp : p ≤ 1) : notifySend p ≤ 1 := by
  unfold notifySend
  split <;> omega

theorem wstep_updatePending_le_one {w w' : WatcherState} (h : WStep w w')
    (hw : w.updatePending ≤ 1) : w'.updatePending ≤ 1 := by
  cases h with
  | exec now hk res =>
    cases res with
    | error msg =>
      rw [executeDetector_updatePending_error]
      exact hw
    | ok probs =>
      show (updateProblems _ probs now).updatePending ≤ 1
      rw [updateProblems_updatePending]
      split
      · exact notifySend_le_one _
          (by rw [checkPrometheusHealth_updatePending]; exact hw)
      · rw [checkPrometheusHealth_updatePending]
        exact hw
  | drain hp =>
    show _ - 1 ≤ 1
    omega

theorem reachable_updatePending_le_one (w : WatcherState)
    (h : ReachableW w) : w.updatePending ≤ 1 := by
  induction h with
  | refl => norm_num [newWatcher]
  | tail _ hstep ih => exact wstep_updatePending_le_one hstep ih

/-- Claim C6: at most one notification is ever pending; a merge that changed
anything leaves exactly one pending signal (the send never blocks and is a
no-op when one is already pending); a merge that changed nothing leaves
the pending count alone; and once a signal is pending, further
change-producing merges still leave exactly one. -/
theorem notification_coalescing :
    (∀ w : WatcherState, ReachableW w → w.updatePending ≤ 1) ∧
    (∀ w : WatcherState, ReachableW w → ∀ (B : List Problem) (now : ℚ),
        mergeChanged w.problems B now = true →
        (updateProblems w B now).updatePending = 1) ∧
    (∀ (w : WatcherState) (B : List Problem) (now : ℚ),
        mergeChanged w.problems B now = false →
        (updateProblems w B now).updatePending = w.updatePending) ∧
    (∀ (w : WatcherState) (B : List Problem) (now : ℚ),
        w.updatePending = 1 → (updateProblems w B now).updatePending = 1) := by
  refine ⟨reachable_updatePending_le_one, ?_, ?_, ?_⟩
  · intro w hw B now hch
    have hle := reachable_updatePending_le_one w hw
    rw [updateProblems_updatePending, if_pos hch]
    unfold notifySend
    split <;> omega
  · intro w B now hch
    rw [updateProblems_updatePending, if_neg (by simp [hch])]
  · intro w B now h1
    rw [updateProblems_updatePending]
    split
    · unfold notifySend
      rw [h1]
      norm_num
    · exact h1

/-- Witness for claim C6: from the freshly constructed (reachable) watcher, a
change-producing merge leaves exactly one pending signal. -/
theorem notification_coalescing_witness :
    (updateProblems newWatcher [sampleProblem] 5).updatePending = 1 :=
  notification_coalescing.2.1 newWatcher Relation.ReflTransGen.refl
    [sampleProblem] 5 (by simp [mergeChanged])

/-! ## Claim C7: the backend health probe is not in fact throttled

Per cycle, the guard does hold: `checkPrometheusHealth` probes only when
at least 30 seconds have elapsed since the `lastPrometheusCheck` value it
read.  But the guard and the probe are not one atomic section — the read
lock is released before `provider.Health` is called — and detector
goroutines run concurrently (all fire immediately on `Start`, unlimited
by default), so two goroutines can both read the same stale
`lastPrometheusCheck`, both pass the guard, and both invoke the probe
within the same 30-second window.  The theorem below evaluates exactly
that interleaving. -/

/-- Claim C7, failing input: two detector goroutines start their first
cycles concurrently against a fresh watcher and interleave
guard–guard–probe–probe at time 30.  Both guards read the stale
`lastPrometheusCheck = 0` and pass (30 − 0 ≥ 30); then `provider.Health`
is invoked twice at the same instant — two probe invocations 0 seconds
apart, within one 30-second window — contradicting the claim that the
probe is never invoked twice within 30 seconds. -/
theorem health_probe_double_fire :
    (probeStep
        (probeStep (guardStep (guardStep twoDetectorStart 0 30) 1 30)
          0 30 true)
        1 30 true).probeTimes = [30, 30] := by
  norm_num [guardStep, probeStep, twoDetectorStart]

/-! ## Claim C9: error rate derivation and bounds -/

theorem executeDetector_errorCount_le (w : WatcherState) (now : ℚ)
    (hk : Bool) (res : DetectResult) :
    (executeDetector w now hk res).errorCount = w.errorCount ∨
    (executeDetector w now hk res).errorCount = w.errorCount + 1 := by
  cases res with
  | error msg =>
    right
    show (checkPrometheusHealth w now hk).errorCount + 1 = w.errorCount + 1
    rw [checkPrometheusHealth_errorCount]
  | ok probs =>
    left
    show (updateProblems _ probs now).errorCount = w.errorCount
    rw [updateProblems_errorCount]
    exact checkPrometheusHealth_errorCount w now hk

theorem executeDetector_errorCount_ok (w : WatcherState) (now : ℚ)
    (hk : Bool) (probs : List Problem) :
    (executeDetector w now hk (Except.ok probs)).errorCount
      = w.errorCount := by
  show (updateProblems _ probs now).errorCount = w.errorCount
  rw [updateProblems_errorCount]
  exact checkPrometheusHealth_errorCount w now hk

theorem wstep_counters {w w' : WatcherState} (h : WStep w w')
    (hw : 0 ≤ w.errorCount ∧ w.errorCount ≤ w.queryCount) :
    0 ≤ w'.errorCount ∧ w'.errorCount ≤ w'.queryCount := by
  cases h with
  | exec now hk res =>
    rcases executeDetector_errorCount_le w now hk res with he | he <;>
      rw [he, executeDetector_queryCount] <;> omega
  | drain hp => exact hw

theorem reachable_counters (w : WatcherState) (h : ReachableW w) :
    0 ≤ w.errorCount ∧ w.errorCount ≤ w.queryCount := by
  induction h with
  | refl => norm_num [newWatcher]
  | tail _ hstep ih => exact wstep_counters hstep ih

/-- Claim C9: `GetPrometheusStats` returns
`ErrorRate = errorCount / queryCount` when `queryCount > 0` and `0`
otherwise; in every reachable watcher state `0 ≤ errorCount ≤ queryCount`,
so the returned rate always lies in `[0, 1]`. -/
theorem errorRate_bounds :
    (∀ w : WatcherState, (getPrometheusStats w).ErrorRate
        = if w.queryCount > 0 then (w.errorCount : ℚ) / (w.queryCount : ℚ)
          else 0) ∧
    (∀ w : WatcherState, ReachableW w →
        0 ≤ w.errorCount ∧ w.errorCount ≤ w.queryCount) ∧
    (∀ w : WatcherState, ReachableW w →
        0 ≤ (getPrometheusStats w).ErrorRate ∧
        (getPrometheusStats w).ErrorRate ≤ 1) := by
  refine ⟨fun w => rfl, reachable_counters, ?_⟩
  intro w hw
  obtain ⟨h0, h1⟩ := reachable_counters w hw
  show 0 ≤ (if w.queryCount > 0 then (w.errorCount : ℚ) / (w.queryCount : ℚ)
      else 0) ∧
    (if w.queryCount > 0 then (w.errorCount : ℚ) / (w.queryCount : ℚ)
      else 0) ≤ 1
  split
  · rename_i hq
    have hq' : (0 : ℚ) < (w.queryCount : ℚ) := by exact_mod_cast hq
    have he' : (0 : ℚ) ≤ (w.errorCount : ℚ) := by exact_mod_cast h0
    have hle : (w.errorCount : ℚ) ≤ (w.queryCount : ℚ) := by exact_mod_cast h1
    exact ⟨div_nonneg he' (le_of_lt hq'), (div_le_one hq').mpr hle⟩
  · norm_num

/-- Witness for claim C9: the bounds hold at the freshly constructed watcher. -/
theorem errorRate_bounds_witness :
    0 ≤ (getPrometheusStats newWatcher).ErrorRate ∧
    (getPrometheusStats newWatcher).ErrorRate ≤ 1 :=
  errorRate_bounds.2.2 newWatcher Relation.ReflTransGen.refl

/-! ## Claim C8: the baseline diff partitions the IDs -/

/-- Claim C8: `Compare` classifies every distinct ID present in either input
into exactly one of New / Resolved / Unchanged — the three sets are the
two set differences and the intersection of the ID sets, they are pairwise
disjoint, their union is the union of the two ID sets, and the summary
counts are the sizes of the respective sets. -/
theorem compare_partitions (current baseline : List Problem) :
    (Compare current baseline).New.toFinset
        = (current.map Problem.ID).toFinset
          \ (baseline.map Problem.ID).toFinset ∧
    (Compare current baseline).Resolved.toFinset
        = (baseline.map Problem.ID).toFinset
          \ (current.map Problem.ID).toFinset ∧
    (Compare current baseline).Unchanged.toFinset
        = (current.map Problem.ID).toFinset
          ∩ (baseline.map Problem.ID).toFinset ∧
    Disjoint (Compare current baseline).New.toFinset
      (Compare current baseline).Resolved.toFinset ∧
    Disjoint (Compare current baseline).New.toFinset
      (Compare current baseline).Unchanged.toFinset ∧
    Disjoint (Compare current baseline).Resolved.toFinset
      (Compare current baseline).Unchanged.toFinset ∧
    (Compare current baseline).New.toFinset
        ∪ (Compare current baseline).Resolved.toFinset
        ∪ (Compare current baseline).Unchanged.toFinset
      = (current.map Problem.ID).toFinset
        ∪ (baseline.map Problem.ID).toFinset ∧
    (Compare current baseline).Summary.NewCount
        = (Compare current baseline).New.toFinset.card ∧
    (Compare current baseline).Summary.ResolvedCount
        = (Compare current baseline).Resolved.toFinset.card ∧
    (Compare current baseline).Summary.UnchangedCount
        = (Compare current baseline).Unchanged.toFinset.card := by
  have h1 : (Compare current baseline).New.toFinset
      = (current.map Problem.ID).toFinset
        \ (baseline.map Problem.ID).toFinset := by
    ext a
    simp [Compare, mapKeysOf, List.mem_filter]
  have h2 : (Compare current baseline).Resolved.toFinset
      = (baseline.map Problem.ID).toFinset
        \ (current.map Problem.ID).toFinset := by
    ext a
    simp [Compare, mapKeysOf, List.mem_filter]
  have h3 : (Compare current baseline).Unchanged.toFinset
      = (current.map Problem.ID).toFinset
        ∩ (baseline.map Problem.ID).toFinset := by
    ext a
    simp [Compare, mapKeysOf, List.mem_filter]
  refine ⟨h1, h2, h3, ?_, ?_, ?_, ?_, ?_, ?_, ?_⟩
  · rw [h1, h2]
    refine Finset.disjoint_left.mpr ?_
    intro a ha hb
    simp only [Finset.mem_sdiff] at ha hb
    exact ha.2 hb.1
  · rw [h1, h3]
    refine Finset.disjoint_left.mpr ?_
    intro a ha hb
    simp only [Finset.mem_sdiff, Finset.mem_inter] at ha hb
    exact ha.2 hb.2
  · rw [h2, h3]
    refine Finset.disjoint_left.mpr ?_
    intro a ha hb
    simp only [Finset.mem_sdiff, Finset.mem_inter] at ha hb
    exact ha.2 hb.1
  · rw [h1, h2, h3]
    ext a
    simp only [Finset.mem_union, Finset.mem_sdiff, Finset.mem_inter]
    tauto
  · exact (List.toFinset_card_of_nodup
      ((List.nodup_dedup _).filter _)).symm
  · exact (List.toFinset_card_of_nodup
      ((List.nodup_dedup _).filter _)).symm
  · exact (List.toFinset_card_of_nodup
      ((List.nodup_dedup _).filter _)).symm

/-! ## Claim C4: what the export copies do and do not isolate -/

theorem find?_write_floatMaps (ms : List (ℕ × List (String × ℚ)))
    (ref : ℕ) (k : String) (v : ℚ)
    (hex : (ms.find? (fun m => m.1 == ref)).isSome) :
    ((ms.map (fun m =>
        if m.1 = ref then (m.1, (k, v) :: m.2.filter (fun e => e.1 ≠ k))
        else m)).find? (fun m => m.1 == ref)).bind
      (fun m => (m.2.find? (fun e => e.1 == k)).map Prod.snd) = some v := by
  induction ms with
  | nil => simp [List.find?] at hex
  | cons m rest ih =>
    by_cases hm : m.1 = ref
    · rw [List.map_cons, if_pos hm]
      rw [List.find?]
      have hbeq : (((m.1, (k, v) :: m.2.filter (fun e => e.1 ≠ k)) :
          ℕ × List (String × ℚ)).1 == ref) = true := by simp [hm]
      rw [hbeq]
      simp [List.find?]
    · rw [List.find?] at hex
      have hbeq : (m.1 == ref) = false := by simp [hm]
      rw [hbeq] at hex
      rw [List.map_cons, if_neg hm, List.find?, hbeq]
      exact ih hex

/-- Counterexample for claim C4: the exported copy carries the very same
metrics-map handle as the stored problem, so writing a metric entry
through the exported copy changes what the store reads: the stored value
of `"error_rate"` moves from `1/2` to `99`.  This refutes the claim that
mutating entries of a returned problem's `Metrics` map cannot change the
internally stored value. -/
theorem export_copy_shares_maps_counterexample :
    getProblems sampleHeapState = [sampleRefProblem] ∧
    storedMetric sampleHeapState sampleRefProblem ("error_rate")
      = some (1/2) ∧
    storedMetric
        { sampleHeapState with
          heap := writeFloatEntry sampleHeapState.heap
            sampleRefProblem.MetricsRef ("error_rate") 99 }
        sampleRefProblem ("error_rate") = some 99 := by
  refine ⟨?_, ?_, ?_⟩
  · simp [getProblems, sampleHeapState]
  · simp [storedMetric, readFloatEntry, sampleHeapState, sampleRefProblem,
      List.find?]
  · simp [storedMetric, readFloatEntry, writeFloatEntry, sampleHeapState,
      sampleRefProblem, List.find?, List.filter]

/-- Claim C4, amended: each export returns shallow copies: every returned
problem equals a stored struct field-for-field — so assigning to a scalar
field of a returned copy can never reach the store — but the copy shares
the `Labels`/`Metrics` map handles with the stored problem, and writing a
metrics entry through the returned copy's handle is read back by the
stored problem. -/
theorem export_shallow_copy_spec (w : WatcherHeapState) (q : ProblemRef)
    (hq : q ∈ getProblems w ∨ q ∈ getProblemsByRecency w ∨
      q ∈ getProblemsByCount w) :
    q ∈ w.problems ∧
    (∀ (k : String) (v : ℚ),
        (w.heap.floatMaps.find? (fun m => m.1 == q.MetricsRef)).isSome →
        storedMetric
            { w with heap := writeFloatEntry w.heap q.MetricsRef k v } q k
          = some v) := by
  have hmem : q ∈ w.problems := by
    rcases hq with h | h | h <;>
      · have h2 := List.mem_mergeSort.mp h
        simpa using h2
  refine ⟨hmem, ?_⟩
  intro k v hex
  show ((w.heap.floatMaps.map _).find? _).bind _ = some v
  exact find?_write_floatMaps w.heap.floatMaps q.MetricsRef k v hex

/-- Witness for claim C4: instantiation of the amended claim at the concrete
heap state. -/
theorem export_shallow_copy_spec_witness :
    sampleRefProblem ∈ sampleHeapState.problems ∧
    storedMetric
        { sampleHeapState with
          heap := writeFloatEntry sampleHeapState.heap
            sampleRefProblem.MetricsRef ("error_rate") 99 }
        sampleRefProblem ("error_rate") = some 99 := by
  have h := export_shallow_copy_spec sampleHeapState sampleRefProblem
    (Or.inl (by simp [getProblems, sampleHeapState]))
  exact ⟨h.1, h.2 ("error_rate") 99
    (by simp [sampleHeapState, sampleRefProblem, List.find?])⟩

end Infranow
